import Mathlib

/-!
Verification of the selection-driven filtering and aggregation engine of the
heritage-site explorer (src/app.js).

The JavaScript source is shallowly embedded: each pure data-layer function of
the source becomes a Lean definition of the same name; the mutable `state`
object becomes an explicit `AppState` value; JS numbers that are always
integers in the program (years, counts) become `Int`/`Nat`; fallible values
become `Option`.  Free-text fields are `String`s and the regular-expression
scans of the source are transcribed as structural scans over `List Char`.
JS coordinates are only ever tested with `Number.isFinite`, so a coordinate is
modelled as `Option ℚ` where `some q` stands for a present, finite number and
`none` for a missing or non-finite one.
-/

namespace WHC

/-- A danger-list event, as produced by `parseDangerList` in src/app.js:
`{ type: match[1], year: +match[2] }`. -/
structure DEvent where
  type : Char
  year : Int
deriving DecidableEq, Repr

/-- Canonical `Site` entity as built by `formatSite` (src/app.js:107-135).
Display-only passthrough fields that no engine logic reads
(`id`, `dangerTimeline`, `description`, `iso`, `url`, `criteriaText`)
are omitted. -/
structure Site where
  name : String
  region : String
  year : Int
  category : String
  criteria : List String
  lat : Option ℚ
  lon : Option ℚ
  countries : List String
  statesText : String
  danger : Bool
  dangerEvents : List DEvent
deriving DecidableEq, Repr

/-- A raw input record, with the fields that `formatSite` reads.
`none` models a JS `undefined`/`null` field.  `lat`/`lon` model
`d.coordinates?.lat` / `d.coordinates?.lon`: `some q` is a present finite
number, `none` a missing or non-finite one.  `danger` arrives as a string
(the source coerces with `String(d.danger)`). -/
structure RawRecord where
  date_inscribed : Option String
  secondary_dates : Option String
  criteria_txt : Option String
  states_names : Option (List String)
  danger_list : Option String
  category : Option String
  danger : Option String
  name_en : String
  region : Option String
  lat : Option ℚ
  lon : Option ℚ
deriving DecidableEq, Repr

/-- `\d` of the source's regexes: an ASCII decimal digit. -/
def isDigitChar (c : Char) : Bool := '0' ≤ c && c ≤ '9'

/-- Do the first four characters of `l` exist and are they all digits?
This is the test the regex `/\d{4}/` performs at one start position. -/
def fourHere : List Char → Bool
  | a :: b :: c :: d :: _ => isDigitChar a && isDigitChar b && isDigitChar c && isDigitChar d
  | _ => false

/-- The first window of four consecutive digits of `l`, scanning left to
right exactly as `String(value).match(/\d{4}/)` does (src/app.js:139). -/
def firstFour : List Char → Option (List Char)
  | [] => none
  | c :: t => if fourHere (c :: t) then some ((c :: t).take 4) else firstFour t

/-- Decimal value of a digit string, as the JS unary `+` computes it on a
string of digits (src/app.js:140, `+match[0]`). -/
def digitsToNat (ds : List Char) : Nat :=
  ds.foldl (fun n c => n * 10 + (c.toNat - 48)) 0

/-- `parseYear` (src/app.js:137-141).  `none` models the JS `null` return:
a missing/empty field (`!value`) or a text with no four consecutive digits.
Note the result `some 0` is possible (text "0000"); the caller `formatSite`
treats it as falsy. -/
def parseYear (value : Option String) : Option Int :=
  match value with
  | none => none
  | some s =>
    if s = "" then none
    else
      match firstFour s.data with
      | some w => some (digitsToNat w : Int)
      | none => none

/-- A character matched by `[ivx]` under the `i` flag (src/app.js:145). -/
def isIvxChar (c : Char) : Bool := c ∈ ['i', 'v', 'x', 'I', 'V', 'X']

/-- `m.replace(/[()]/g, '').toLowerCase()` applied to a token already free of
parentheses (src/app.js:146). -/
def lowerTok (run : List Char) : String := String.mk (run.map Char.toLower)

/-- Worker for `parseCriteria`: the global scan of `/\(([ivx]+)\)/gi`
(src/app.js:145).  At a `'('` the engine greedily takes the `[ivx]` run; a
match succeeds iff the run is non-empty and is immediately followed by `')'`
(backtracking inside the run cannot help, since a shorter prefix would be
followed by another `[ivx]` character, not `')'`).  On success scanning
resumes after the `')'`; on failure it resumes one character further on. -/
def parseCriteriaLoop : Nat → List Char → List String
  | 0, _ => []
  | _, [] => []
  | fuel + 1, c :: rest =>
    if c = '(' then
      let run := rest.takeWhile isIvxChar
      let rest' := rest.dropWhile isIvxChar
      if run ≠ [] ∧ rest'.head? = some ')' then
        lowerTok run :: parseCriteriaLoop fuel rest'.tail
      else parseCriteriaLoop fuel rest
    else parseCriteriaLoop fuel rest

/-- `parseCriteriaAux` runs the scan with enough fuel for the whole text
(every step consumes at least one character, so `l.length` steps always
finish the scan). -/
def parseCriteriaAux (l : List Char) : List String := parseCriteriaLoop l.length l

/-- `parseCriteria` (src/app.js:143-147).  `none` and the empty string model
the falsy texts caught by `if (!text) return []`. -/
def parseCriteria (text : Option String) : List String :=
  match text with
  | none => []
  | some s => if s = "" then [] else parseCriteriaAux s.data

/-- `\s` of the danger regex: a whitespace character. -/
def isWsChar (c : Char) : Bool := c = ' ' || c = '\t' || c = '\n' || c = '\r' || c = '\x0c' || c = '\x0b'

/-- `[A-Z]` of the danger regex. -/
def isUpperAZ (c : Char) : Bool := 'A' ≤ c && c ≤ 'Z'

/-- Worker for `parseDangerList`: the repeated `regex.exec` loop over
`/([A-Z])\s*(\d{4})/g` (src/app.js:149-159).  The greedy `\s*` run must be
followed by four digits (backtracking cannot help: a shorter whitespace
prefix is followed by whitespace, not a digit).  On a match the scan resumes
after the digits, otherwise one character further on. -/
def parseDangerLoop : Nat → List Char → List DEvent
  | 0, _ => []
  | _, [] => []
  | fuel + 1, c :: rest =>
    if isUpperAZ c then
      match rest.dropWhile isWsChar with
      | a :: b :: d :: e :: rest' =>
        if isDigitChar a && isDigitChar b && isDigitChar d && isDigitChar e then
          ⟨c, (digitsToNat [a, b, d, e] : Int)⟩ :: parseDangerLoop fuel rest'
        else parseDangerLoop fuel rest
      | _ => parseDangerLoop fuel rest
    else parseDangerLoop fuel rest

/-- `parseDangerAux` runs the scan with enough fuel for the whole text
(every step consumes at least one character). -/
def parseDangerAux (l : List Char) : List DEvent := parseDangerLoop l.length l

/-- `parseDangerList` (src/app.js:149-159). -/
def parseDangerList (text : Option String) : List DEvent :=
  match text with
  | none => []
  | some s => if s = "" then [] else parseDangerAux s.data

/-- `s.toLowerCase()` on the ASCII fragment the program manipulates. -/
def lowerStr (s : String) : String := String.mk (s.data.map Char.toLower)

/-- The JS falsiness test `!year` applied to `parseYear`'s result:
`null` and `0` are falsy. -/
def jsFalsyYear : Option Int → Bool
  | none => true
  | some n => n == 0

/-- `formatSite` (src/app.js:107-135).  Returns `none` for the JS `null`. -/
def formatSite (d : RawRecord) : Option Site :=
  let year := parseYear (d.date_inscribed.orElse fun _ => d.secondary_dates)
  if jsFalsyYear year then none
  else
    let countries :=
      match d.states_names with
      | some l => if l.isEmpty then ["Unspecified country"] else l
      | none => ["Unspecified country"]
    some
      { name := d.name_en
        region := d.region.getD "Unspecified region"
        year := year.getD 0
        category :=
          match d.category with
          | some c => if c ∈ ["Cultural", "Natural", "Mixed"] then c else "Other"
          | none => "Other"
        criteria := parseCriteria d.criteria_txt
        lat := d.lat
        lon := d.lon
        countries := countries
        statesText := String.intercalate ", " countries
        -- String(undefined) is the string "undefined", which is not "true"
        danger := lowerStr (d.danger.getD "undefined") == "true"
        dangerEvents := parseDangerList d.danger_list }

/-- The normalization pipeline of `init` (src/app.js:81-84):
map `formatSite`, keep non-null results with finite lat/lon (the
`Number.isFinite(d.year)` conjunct of the source filter is identically true
here, as a surviving `year` is an integer by construction), then sort
ascending by year (`d3.ascending` on years; `mergeSort` is stable like the
JS engine sort). -/
def normalize (rawSites : List RawRecord) : List Site :=
  (((rawSites.map formatSite).filterMap id).filter
      (fun d => d.lat.isSome && d.lon.isSome)).mergeSort
    (fun a b => a.year ≤ b.year)

/-- The `sunburstSelection` drill path built by `handleSunburstClick`
(src/app.js:616-620): each level may be `undefined` (`none` here). -/
structure DrillSelection where
  region : Option String
  country : Option String
  category : Option String
deriving DecidableEq, Repr

/-- The mutable `state` object (src/app.js:32-43), restricted to the fields
the filter engine and the playback tick read.  `viewMode` and `brushRange`
only select aggregation parameters / highlighting and are carried for
completeness. -/
structure AppState where
  year : Int
  viewMode : String
  selectedStandards : List String
  standardMode : String
  searchTerm : String
  dangerOnly : Bool
  showDangerEvents : Bool
  playing : Bool
  sunburstSelection : Option DrillSelection
deriving DecidableEq, Repr

/-- JS truthiness of an optional string field: `undefined` and `""` are
falsy, every other string truthy. -/
def truthyStr : Option String → Bool
  | none => false
  | some s => !(s == "")

/-- Substring test `haystack.includes(needle)`. -/
def containsSub (needle hay : String) : Bool := decide (needle.data <:+: hay.data)

/-- The `state.sunburstSelection` block of the filter predicate
(src/app.js:671-678).  Each level is guarded only by its own truthiness. -/
def drillOk (sel : DrillSelection) (site : Site) : Bool :=
  (!truthyStr sel.region || site.region == sel.region.getD "") &&
  (!truthyStr sel.country || site.countries.contains (sel.country.getD "")) &&
  (!truthyStr sel.category || site.category == sel.category.getD "")

/-- The per-site predicate of `getFilteredSites` (src/app.js:654-681).
The source's sequence of early `return false`s is written as the equivalent
conjunction of guarded conditions, in source order. -/
def sitePasses (st : AppState) (site : Site) : Bool :=
  decide (site.year ≤ st.year) &&
  (!st.dangerOnly || site.danger) &&
  (st.searchTerm == "" ||
    containsSub st.searchTerm (lowerStr (site.name ++ " " ++ site.statesText))) &&
  (st.selectedStandards.isEmpty ||
    (if st.standardMode == "OR" then
      site.criteria.any (fun c => st.selectedStandards.contains c)
    else
      st.selectedStandards.all (fun c => site.criteria.contains c))) &&
  (match st.sunburstSelection with
   | none => true
   | some sel => drillOk sel site)

/-- `getFilteredSites` (src/app.js:654-681), with the site list passed
explicitly instead of read from the module-level `sites`. -/
def getFilteredSites (sites : List Site) (st : AppState) : List Site :=
  sites.filter (sitePasses st)

/-- The `#yearSlider` input handler (src/app.js:210-214), the spec's
`setCursorYear`: `state.year = +event.target.value`.  The handler itself
stores the value as-is; no clamping is performed in this code. -/
def setCursorYear (st : AppState) (y : Int) : AppState := { st with year := y }

/-- One playback tick of `togglePlay`'s interval callback
(src/app.js:261-265): wrap to `yearExtent[0]` when at or past
`yearExtent[1]`, else advance one year. -/
def playTick (yearMin yearMax : Int) (st : AppState) : AppState :=
  if st.year ≥ yearMax then { st with year := yearMin } else { st with year := st.year + 1 }

/-- `d3.range(a, b + 1)` on integers: the years `a, a+1, …, b`
(src/app.js:429, 506). -/
def rangeYears (a b : Int) : List Int :=
  (List.range (b + 1 - a).toNat).map (fun (i : Nat) => a + (i : Int))

/-- One record of the stacked series: a single JS object whose properties —
`year`, one count per group key, and finally `total` — all share one
namespace, so a group key named "year" or "total" aliases those properties.
`some n` is a property holding the number `n`; `none` is a property that is
absent or holds the non-number `NaN` (indistinguishable to every read this
pipeline performs). -/
def JSRecord : Type := String → Option Int

/-- A JS property write `rec[k] = v`. -/
def setProp (rec : JSRecord) (k : String) (v : Option Int) : JSRecord :=
  fun q => if q = k then v else rec q

/-- `const record = { year }; keys.forEach((key) => { record[key] = 0; })`
(src/app.js:430-436): note that when "year" is among the keys the zeroing
loop clobbers the `year` property just written. -/
def initRecord (keys : List String) (y : Int) : JSRecord :=
  keys.foldl (fun rec k => setProp rec k (some 0))
    (setProp (fun _ => none) "year" (some y))

/-- Key resolution of
`new Map(yearRecords.map((record) => [record.year, record]))`
(src/app.js:437): the map is keyed by the `year` properties as they stand
after initialisation, a duplicate key keeps the last record, and the map is
never re-keyed by later mutations.  `lastIdx ys y` is the array position
`yearMap.get(y)` resolves to; `none` is `!yearMap.has(y)`. -/
def lastIdx : List (Option Int) → Int → Option Nat
  | [], _ => none
  | v :: rest, y =>
    match lastIdx rest y with
    | some i => some (i + 1)
    | none => if v = some y then some 0 else none

/-- The JS `rec[k] += 1`: a number increments; `undefined`/`NaN` stays a
non-number. -/
def bumpProp (rec : JSRecord) (k : String) : JSRecord :=
  setProp rec k
    (match rec k with
     | some v => some (v + 1)
     | none => none)

/-- The `data.forEach` body of `prepareStackData` (src/app.js:438-442):
`if (!yearMap.has(site.year)) return;` then
`yearMap.get(site.year)[groupingKey] += 1;`, with the map lookup resolved
against the captured year keys `ys` and the increment mutating the record
in place at the resolved position. -/
def stackStep (groupKey : Site → String) (ys : List (Option Int))
    (recs : List JSRecord) (site : Site) : List JSRecord :=
  match lastIdx ys site.year with
  | none => recs
  | some i =>
    match recs[i]? with
    | some r => recs.set i (bumpProp r (groupKey site))
    | none => recs

/-- `keys.reduce((sum, key) => sum + record[key], 0)` (src/app.js:444):
adding a missing/`NaN` property poisons the sum. -/
def jsSum (keys : List String) (rec : JSRecord) : Option Int :=
  keys.foldl
    (fun sum k =>
      match sum, rec k with
      | some s, some v => some (s + v)
      | _, _ => none)
    (some 0)

/-- `prepareStackData` (src/app.js:427-447).  `keys` is
`categoryColor.domain()` or `regionColor.domain()` and `groupKey` is
`site.category` or `site.region`, both chosen by `state.viewMode`; they are
passed as parameters here.  One record per year of the extent, the map from
captured `year` properties to record positions, one `stackStep` per site
(`data.forEach`), then the `total` pass
(`record.total = keys.reduce((sum, key) => sum + record[key], 0)`). -/
def prepareStackData (keys : List String) (groupKey : Site → String)
    (yearMin yearMax : Int) (data : List Site) : List JSRecord :=
  let yearRecords : List JSRecord := (rangeYears yearMin yearMax).map (initRecord keys)
  let capturedYears : List (Option Int) := yearRecords.map (fun r => r "year")
  let filled : List JSRecord := data.foldl (stackStep groupKey capturedYears) yearRecords
  filled.map (fun rec => setProp rec "total" (jsSum keys rec))

/-- One point of the danger-event series: `{ year, value }`, where
`value = none` models the JS `null` sentinel (src/app.js:507). -/
structure DPoint where
  year : Int
  value : Option Nat
deriving DecidableEq, Repr

/-- The two series returned by `buildDangerSeries`. -/
structure DangerSeries where
  Y : List DPoint
  R : List DPoint
deriving DecidableEq, Repr

/-- The `base` array of `buildDangerSeries` (src/app.js:506-507). -/
def dangerBase (yearMin yearMax cursor : Int) : List DPoint :=
  (rangeYears yearMin yearMax).map
    (fun y => ⟨y, if y ≤ cursor then some 0 else none⟩)

/-- `evt.value += 1` on an `Option Nat` with JS semantics (`null + 1` is
`1`); the guards in fact ensure the value is `some` whenever it is bumped. -/
def bump (v : Option Nat) : Option Nat := some (v.getD 0 + 1)

/-- The guard of the event loop of `buildDangerSeries`
(src/app.js:513-516) for the series of type `t`:
`yearIndex.has(evt.year)`, `evt.year <= state.year`, and
`evt.type === t`. -/
def evtOk (yearMin yearMax cursor : Int) (t : Char) (e : DEvent) : Bool :=
  (e.type == t) && (rangeYears yearMin yearMax).contains e.year &&
    decide (e.year ≤ cursor)

/-- Applying one danger event to the series of type `t`
(src/app.js:513-516).  The `seriesY[idx]` index update is expressed as a map
touching the single point whose year is the event's year. -/
def applyEvt (yearMin yearMax cursor : Int) (t : Char)
    (pts : List DPoint) (e : DEvent) : List DPoint :=
  if evtOk yearMin yearMax cursor t e then
    pts.map (fun p => if p.year = e.year then ⟨p.year, bump p.value⟩ else p)
  else pts

/-- `buildDangerSeries` (src/app.js:505-520).  The nested
`data.forEach(site => site.dangerEvents.forEach(evt => …))` walks the events
in `flatMap` order; the `Y` and `R` series are updated independently, so
each is the fold of the flat event list over its own base copy. -/
def buildDangerSeries (data : List Site) (yearMin yearMax cursor : Int) :
    DangerSeries :=
  let evts := data.flatMap (fun s => s.dangerEvents)
  ⟨evts.foldl (applyEvt yearMin yearMax cursor 'Y') (dangerBase yearMin yearMax cursor),
   evts.foldl (applyEvt yearMin yearMax cursor 'R') (dangerBase yearMin yearMax cursor)⟩

/-- One element of the site-country fact table built by
`data.flatMap((site) => site.countries.map((country) => ({ ...site, country })))`
(src/app.js:588): the spread site together with the one country. -/
structure SCPair where
  site : Site
  country : String
deriving DecidableEq, Repr

/-- The flat site-country pair list of `buildHierarchy` (src/app.js:588). -/
def flatPairs (data : List Site) : List SCPair :=
  data.flatMap (fun s => s.countries.map (fun c => ⟨s, c⟩))

/-- Group keys in first-occurrence order, as `d3.rollup`'s `InternMap`
produces them. -/
def firstKeys (l : List String) : List String :=
  match l with
  | [] => []
  | k :: rest => k :: firstKeys (rest.filter (fun x => !(x == k)))
termination_by l.length
decreasing_by
  simp only [List.length_cons]
  exact Nat.lt_succ_of_le (List.length_filter_le _ _)

/-- A node of the rollup tree, after `rollupToChildren`
(src/app.js:602-612): an internal `{ name, children }` node or a
`{ name, value }` leaf. -/
inductive HNode where
  | node (name : String) (children : List HNode)
  | leaf (name : String) (value : Nat)

mutual

/-- Sum of all leaf `value`s of a rollup tree. -/
def leafSum : HNode → Nat
  | .leaf _ v => v
  | .node _ cs => leafSumList cs

/-- Sum of all leaf `value`s of a forest. -/
def leafSumList : List HNode → Nat
  | [] => 0
  | h :: t => leafSum h + leafSumList t

end

/-- The innermost `d3.rollup` level of `buildHierarchy` (src/app.js:590-594)
already converted by `rollupToChildren`: one leaf per category of `pairs`,
valued by the group size `sitesByCategory.length`. -/
def categoryLeaves (pairs : List SCPair) : List HNode :=
  (firstKeys (pairs.map (fun p => p.site.category))).map
    (fun cat => .leaf cat (pairs.filter (fun p => p.site.category == cat)).length)

/-- The country level of the rollup (src/app.js:586-599 with
`rollupToChildren`). -/
def countryNodes (pairs : List SCPair) : List HNode :=
  (firstKeys (pairs.map (fun p => p.country))).map
    (fun cty => .node cty (categoryLeaves (pairs.filter (fun p => p.country == cty))))

/-- The region level of the rollup. -/
def regionNodes (pairs : List SCPair) : List HNode :=
  (firstKeys (pairs.map (fun p => p.site.region))).map
    (fun reg => .node reg (countryNodes (pairs.filter (fun p => p.site.region == reg))))

/-- `buildHierarchy` (src/app.js:586-600) composed with `rollupToChildren`
(src/app.js:602-612): the nested `d3.rollup` maps, keyed by region, country
and category in first-occurrence order with members kept in input order,
are written directly as grouping by filtering. -/
def buildHierarchy (data : List Site) : HNode :=
  .node "World" (regionNodes (flatPairs data))

/-! ### Specification-side definitions

Definitions below are not transcriptions of src/app.js; they state, in the
claims' own vocabulary, the conditions the theorems compare the code
against. -/

/-- Four consecutive digit characters occur in `l` at position `i`. -/
def fourDigitsAt (l : List Char) (i : Nat) : Bool := fourHere (l.drop i)

/-- The window of four characters of `l` at position `i`. -/
def window (l : List Char) (i : Nat) : List Char := (l.drop i).take 4

/-- The record-keeping condition of the original claim C1, read literally:
the date text contains a maximal run of digits of length exactly four.
`i` starts such a run when four digits sit at `i`, the preceding character
(if any) is not a digit, and the character after the window (if any) is not
a digit. -/
def hasRunOfExactlyFourDigits (s : String) : Prop :=
  ∃ i < s.data.length,
    fourDigitsAt s.data i = true ∧
    (i = 0 ∨ ∀ c ∈ (s.data.drop (i - 1)).take 1, isDigitChar c = false) ∧
    (∀ c ∈ (s.data.drop (i + 4)).take 1, isDigitChar c = false)

/-- The claim-side year condition of the amended C1: the date text has a
first window of four consecutive digits and its decimal value is not zero. -/
def yearSpec : Option String → Prop
  | none => False
  | some s =>
    ∃ i < s.data.length,
      fourDigitsAt s.data i = true ∧
      (∀ j < i, fourDigitsAt s.data j = false) ∧
      digitsToNat (window s.data i) ≠ 0

/-- The date field `formatSite` parses: `d.date_inscribed ?? d.secondary_dates`. -/
def dateField (r : RawRecord) : Option String :=
  r.date_inscribed.orElse fun _ => r.secondary_dates

/-- A raw record survives normalization: `formatSite` returns a site and the
`init` filter keeps it. -/
def keeps (r : RawRecord) : Bool :=
  match formatSite r with
  | some d => d.lat.isSome && d.lon.isSome
  | none => false

/-- The claim-side kept condition of the amended C1. -/
def specKept (r : RawRecord) : Prop :=
  r.lat.isSome = true ∧ r.lon.isSome = true ∧ yearSpec (dateField r)

/-- The ten criteria codes, `Object.keys(criteriaDefinitions)`
(src/app.js:4-17). -/
def criteriaOrder : List String :=
  ["i", "ii", "iii", "iv", "v", "vi", "vii", "viii", "ix", "x"]

/-- `n`-fold `bump`. -/
def bumpN : Nat → Option Nat → Option Nat
  | 0, v => v
  | n + 1, v => bumpN n (bump v)

/-- Claim-side count for C7: the number of danger events of type `t` and
year `y` across all events of the filtered sites. -/
def eventCount (data : List Site) (t : Char) (y : Int) : Nat :=
  ((data.flatMap (fun s => s.dangerEvents)).filter
    (fun e => e.type == t && e.year == y)).length

/-- A site with its danger events restricted to the global year extent,
used to state C10. -/
def restrictEvents (yearMin yearMax : Int) (s : Site) : Site :=
  { s with
    dangerEvents :=
      s.dangerEvents.filter (fun e => decide (yearMin ≤ e.year) && decide (e.year ≤ yearMax)) }

/-! ### Concrete fixtures for counterexamples and witnesses -/

/-- A benign selection state: cursor at 2024, nothing filtered. -/
def st0 : AppState := ⟨2024, "category", [], "OR", "", false, true, false, none⟩

/-- A record with finite coordinates whose date text is the four-digit run
"0000". -/
def rZeroYear : RawRecord :=
  ⟨some "0000", none, none, none, none, none, none, "Z", none, some 1, some 2⟩

/-- A record with finite coordinates, date text "1999" and criteria text
"(xi)". -/
def rXi : RawRecord :=
  ⟨some "1999", none, some "(xi)", some ["A"], none, some "Cultural", none,
    "X", some "Asia", some 1, some 2⟩

/-- The site `formatSite` produces from `rXi`. -/
def siteXi : Site :=
  ⟨"X", "Asia", 1999, "Cultural", ["xi"], some 1, some 2, ["A"], "A", false, []⟩

/-- A `Natural`-category site. -/
def siteN : Site :=
  ⟨"NatSite", "Asia", 1990, "Natural", ["vii"], some 1, some 2, ["Japan"],
    "Japan", false, [⟨'Y', 1999⟩]⟩

/-- A `Cultural`-category site with two countries and criteria i, ii. -/
def siteC : Site :=
  ⟨"CulSite", "Europe", 1985, "Cultural", ["i", "ii"], some 3, some 4,
    ["France", "Spain"], "France, Spain", true, [⟨'Y', 1992⟩, ⟨'R', 1999⟩]⟩

/-- A drill selection with `category` set but `region` and `country`
unset. -/
def selCatOnly : DrillSelection := ⟨none, none, some "Cultural"⟩

/-- `st0` drilled to `selCatOnly`. -/
def stDrillCat : AppState := { st0 with sunburstSelection := some selCatOnly }

/-- `st0` with an empty drill object (every level unset). -/
def stDrillEmpty : AppState :=
  { st0 with sunburstSelection := some ⟨none, none, none⟩ }

/-- `st0` with criterion `i` selected in `AND` mode. -/
def stCritI : AppState := { st0 with selectedStandards := ["i"], standardMode := "AND" }

/-! ## Theorems -/

/-- C2, counterexample: the slider handler stores the raw value; with the
dataset extent [1978, 2024], `setCursorYear` of 3000 leaves the cursor year
at 3000, outside the extent, refuting "the cursor year always lies within
[yearMin, yearMax]". -/
theorem c2_counterexample :
    (setCursorYear st0 3000).year = 3000 ∧ ¬((setCursorYear st0 3000).year ≤ 2024) := by
  decide

/-- C2, amended: `setCursorYear` stores `y` unchanged (no clamping), so the
cursor year afterwards equals `y` and lies within `[yearMin, yearMax]`
exactly when `y` does. -/
theorem c2_setCursorYear_unclamped (st : AppState) (y yearMin yearMax : Int) :
    (setCursorYear st y).year = y ∧
    ((yearMin ≤ (setCursorYear st y).year ∧ (setCursorYear st y).year ≤ yearMax) ↔
      (yearMin ≤ y ∧ y ≤ yearMax)) :=
  ⟨rfl, Iff.rfl⟩

/-- C2, witness: the amended theorem evaluated at `st0`, `y = 3000`. -/
theorem c2_setCursorYear_unclamped_witness : (setCursorYear st0 3000).year = 3000 :=
  (c2_setCursorYear_unclamped st0 3000 1978 2024).1

/-- C9: while the cursor year lies in `[yearMin, yearMax]`, a playback tick
wraps to `yearMin` exactly when the cursor sits at `yearMax` and otherwise
advances it by one; in both cases the result stays in the extent. -/
theorem c9_playTick_wraps (yearMin yearMax : Int) (st : AppState)
    (h1 : yearMin ≤ st.year) (h2 : st.year ≤ yearMax) :
    (st.year = yearMax → (playTick yearMin yearMax st).year = yearMin) ∧
    (st.year ≠ yearMax → (playTick yearMin yearMax st).year = st.year + 1) ∧
    yearMin ≤ (playTick yearMin yearMax st).year ∧
    (playTick yearMin yearMax st).year ≤ yearMax := by
  unfold playTick
  split
  · rename_i hge
    exact ⟨fun _ => rfl, fun hne => absurd (le_antisymm h2 hge) hne, le_refl _,
      le_trans h1 h2⟩
  · rename_i hlt
    push_neg at hlt
    exact ⟨fun heq => absurd heq (by omega), fun _ => rfl,
      show yearMin ≤ st.year + 1 by omega, show st.year + 1 ≤ yearMax by omega⟩

/-- C9, witness: one tick at the upper bound of the extent wraps to the
lower bound. -/
theorem c9_playTick_wraps_witness : (playTick 1978 2024 st0).year = 1978 :=
  (c9_playTick_wraps 1978 2024 st0 (by decide) (by decide)).1 rfl

/-- C4, counterexample: with a drill selection whose `category` is set while
`region` and `country` are unset, `getFilteredSites` does NOT behave as if
the deeper field were absent: the lone Natural site is rejected by the
`category = Cultural` constraint, while removing that field keeps it. -/
theorem c4_counterexample :
    getFilteredSites [siteN] stDrillCat ≠ getFilteredSites [siteN] stDrillEmpty := by
  decide

/-- C4, amended: each drill-selection field constrains independently — a set
deeper field filters sites even when a shallower field is unset.  For any
drill selection, the filtered set equals the drill-free filtered set further
filtered by every set field of the path. -/
theorem c4_drill_fields_independent (sites : List Site) (st : AppState)
    (sel : DrillSelection) (hsel : st.sunburstSelection = some sel) :
    getFilteredSites sites st =
      (getFilteredSites sites { st with sunburstSelection := none }).filter
        (drillOk sel) := by
  unfold getFilteredSites
  rw [List.filter_filter]
  refine List.filter_congr fun s _ => ?_
  simp only [sitePasses, hsel, Bool.and_true]
  cases h1 : decide (s.year ≤ st.year) <;>
    cases h2 : (!st.dangerOnly || s.danger) <;>
      simp [Bool.and_comm, Bool.and_left_comm, Bool.and_assoc]

/-- C4, witness: the amended theorem evaluated at the counterexample
state. -/
theorem c4_drill_fields_independent_witness :
    getFilteredSites [siteN] stDrillCat =
      (getFilteredSites [siteN] { stDrillCat with sunburstSelection := none }).filter
        (drillOk selCatOnly) :=
  c4_drill_fields_independent [siteN] stDrillCat selCatOnly rfl


/-- C8: with the same non-empty `selectedCriteria`, every site passing the
filter in `AND` mode also passes it in `OR` mode. -/
theorem c8_and_subset_or (sites : List Site) (st : AppState)
    (hne : st.selectedStandards ≠ []) (s : Site)
    (hs : s ∈ getFilteredSites sites { st with standardMode := "AND" }) :
    s ∈ getFilteredSites sites { st with standardMode := "OR" } := by
  simp only [getFilteredSites, List.mem_filter] at hs ⊢
  refine ⟨hs.1, ?_⟩
  have hp := hs.2
  simp only [sitePasses, Bool.and_eq_true, Bool.or_eq_true] at hp ⊢
  obtain ⟨⟨⟨⟨h1, h2⟩, h3⟩, h4⟩, h5⟩ := hp
  refine ⟨⟨⟨⟨h1, h2⟩, h3⟩, ?_⟩, h5⟩
  rcases h4 with h4 | h4
  · exact Or.inl h4
  · right
    simp only [show ("AND" == "OR") = false from rfl, Bool.false_eq_true,
      if_false, List.all_eq_true] at h4
    simp only [show ("OR" == "OR") = true from rfl, if_true, List.any_eq_true]
    obtain ⟨k, ks, hsel⟩ : ∃ k ks, st.selectedStandards = k :: ks := by
      cases hsel : st.selectedStandards with
      | nil => exact absurd hsel hne
      | cons k ks => exact ⟨k, ks, rfl⟩
    have hk : st.selectedStandards.contains k = true := by
      rw [hsel]; simp
    have hkc := h4 k (by rw [hsel]; exact List.mem_cons_self k ks)
    exact ⟨k, by simpa using hkc, hk⟩

/-- C8, witness: a site with criteria {i, ii} under selection {i} passes in
`AND` mode, hence also in `OR` mode. -/
theorem c8_and_subset_or_witness :
    stCritI.selectedStandards ≠ [] ∧
    siteC ∈ getFilteredSites [siteC] { stCritI with standardMode := "OR" } :=
  ⟨by decide,
    c8_and_subset_or [siteC] stCritI (by decide) siteC (by decide)⟩

/-- Writing a property and reading it back. -/
theorem setProp_eq (rec : JSRecord) (k : String) (v : Option Int) :
    setProp rec k v k = v := by
  simp [setProp]

/-- Writing one property leaves the others unchanged. -/
theorem setProp_ne (rec : JSRecord) (k : String) (v : Option Int) (q : String)
    (h : q ≠ k) : setProp rec k v q = rec q := by
  simp [setProp, h]

/-- The zeroing loop of `initRecord` leaves properties outside `keys`
unchanged. -/
theorem foldl_setProp_ne (q : String) :
    ∀ (keys : List String), q ∉ keys → ∀ rec : JSRecord,
      (keys.foldl (fun r k => setProp r k (some 0)) rec) q = rec q := by
  intro keys
  induction keys with
  | nil => intro _ rec; rfl
  | cons k rest ih =>
    intro hq rec
    rw [List.foldl_cons, ih (fun h => hq (List.mem_cons_of_mem _ h))]
    exact setProp_ne rec k (some 0) q (fun h => hq (h ▸ List.mem_cons_self _ _))

/-- When "year" is not a group key, an initial record's `year` property is
the year it was created with. -/
theorem initRecord_year (keys : List String) (y : Int) (h : "year" ∉ keys) :
    initRecord keys y "year" = some y := by
  unfold initRecord
  rw [foldl_setProp_ne _ keys h]
  exact setProp_eq _ _ _

/-- Setting a position to the value it already holds changes nothing. -/
theorem set_self_of_getElem {α : Type} : ∀ (l : List α) (i : Nat) (x : α),
    l[i]? = some x → l.set i x = l := by
  intro l
  induction l with
  | nil => intro i x h; exact absurd h (by simp)
  | cons a t ih =>
    intro i x h
    match i with
    | 0 =>
      have : a = x := by simpa using h
      rw [List.set_cons_zero, this]
    | j + 1 =>
      rw [List.set_cons_succ, ih j x (by simpa using h)]

/-- Folding `stackStep` over the data never changes the records' `year`
properties, as long as no site's grouping key is the string "year" (the
property-aliasing case C5's counterexample exhibits). -/
theorem stackStep_years (groupKey : Site → String) (ys : List (Option Int)) :
    ∀ (data : List Site) (recs : List JSRecord),
      (∀ s ∈ data, groupKey s ≠ "year") →
      ((data.foldl (stackStep groupKey ys) recs).map fun r => r "year") =
        recs.map fun r => r "year" := by
  intro data
  induction data with
  | nil => intro recs _; rfl
  | cons site rest ih =>
    intro recs hgk
    rw [List.foldl_cons, ih _ (fun s hs => hgk s (List.mem_cons_of_mem _ hs))]
    unfold stackStep
    cases hli : lastIdx ys site.year
    · rfl
    · rename_i i
      change List.map (fun r => r "year")
          (match recs[i]? with
           | some r => recs.set i (bumpProp r (groupKey site))
           | none => recs) =
        List.map (fun r => r "year") recs
      cases hr : recs[i]?
      · rfl
      · rename_i r
        rw [List.map_set]
        refine set_self_of_getElem _ i _ ?_
        rw [List.getElem?_map, hr]
        have hb : bumpProp r (groupKey site) "year" = r "year" :=
          setProp_ne _ _ _ _ (fun h => hgk site (List.mem_cons_self _ _) h.symm)
        rw [hb]
        rfl

/-- `jsSum` only reads the properties at the keys. -/
theorem jsSum_congr (r1 r2 : JSRecord) :
    ∀ (keys : List String), (∀ k ∈ keys, r1 k = r2 k) →
      ∀ acc : Option Int,
        (keys.foldl
          (fun sum k =>
            match sum, r1 k with
            | some s, some v => some (s + v)
            | _, _ => none) acc) =
        (keys.foldl
          (fun sum k =>
            match sum, r2 k with
            | some s, some v => some (s + v)
            | _, _ => none) acc) := by
  intro keys
  induction keys with
  | nil => intro _ acc; rfl
  | cons k rest ih =>
    intro hk acc
    rw [List.foldl_cons, List.foldl_cons, hk k (List.mem_cons_self _ _),
      ih (fun q hq => hk q (List.mem_cons_of_mem _ hq))]

/-- The number of years of the extent. -/
theorem rangeYears_length (a b : Int) (hab : a ≤ b) :
    ((rangeYears a b).length : Int) = b - a + 1 := by
  simp only [rangeYears, List.length_map, List.length_range]
  omega

/-- C5, counterexample: the per-key count fields live in the same property
namespace as `year` and `total`.  With "total" among the group keys, the
final `record.total` assignment aliases the "total" group field, so the one
output record has `total` 1 but group-field sum 2; with "year" as the group
key set, `record[key] = 0` clobbers every record's year to 0, so the
records are not one per year of the extent. -/
theorem c5_counterexample :
    (((prepareStackData ["Cultural", "total"] (fun s => s.category)
        1985 1985 [siteC]).map fun rec =>
          decide (rec "total" = jsSum ["Cultural", "total"] rec)) = [false]) ∧
    (((prepareStackData ["year"] (fun s => s.category) 1985 1986 []).map
        fun rec => rec "year") = [some 0, some 0]) := by
  constructor
  · decide
  · decide

/-- C5, amended: provided the group-key set contains neither of the record's
reserved property names "year" and "total", and every site's grouping key is
one of the group keys (both hold for the program's key sets — the four
category names, or the dataset's region names — whenever none of them is
literally "year" or "total"), `prepareStackData` returns one record per year
of the global extent — exactly `yearMax - yearMin + 1` records, in extent
order, zero-filled years included — and in every record the `total` property
equals the sum of the record's group fields. -/
theorem c5_prepareStackData_total (keys : List String) (groupKey : Site → String)
    (yearMin yearMax : Int) (data : List Site) (hab : yearMin ≤ yearMax)
    (hyear : "year" ∉ keys) (htotal : "total" ∉ keys)
    (hgk : ∀ s ∈ data, groupKey s ∈ keys) :
    ((prepareStackData keys groupKey yearMin yearMax data).length : Int) =
      yearMax - yearMin + 1 ∧
    ((prepareStackData keys groupKey yearMin yearMax data).map fun rec => rec "year") =
      (rangeYears yearMin yearMax).map some ∧
    ∀ rec ∈ prepareStackData keys groupKey yearMin yearMax data,
      rec "total" = jsSum keys rec := by
  have hyears :
      ((prepareStackData keys groupKey yearMin yearMax data).map fun rec => rec "year") =
        (rangeYears yearMin yearMax).map some := by
    unfold prepareStackData
    rw [List.map_map]
    have h1 : ((fun rec : JSRecord => rec "year") ∘
        fun rec => setProp rec "total" (jsSum keys rec)) =
        fun rec : JSRecord => rec "year" := by
      funext rec
      exact setProp_ne _ _ _ _ (by decide)
    rw [h1,
      stackStep_years groupKey _ data _
        (fun s hs h => hyear (h ▸ hgk s hs)),
      List.map_map]
    refine List.map_congr_left fun y _ => ?_
    exact initRecord_year keys y hyear
  refine ⟨?_, hyears, ?_⟩
  · have := congrArg List.length hyears
    rw [List.length_map, List.length_map] at this
    rw [this]
    exact rangeYears_length _ _ hab
  · intro rec hrec
    unfold prepareStackData at hrec
    obtain ⟨r, _, hr⟩ := List.mem_map.mp hrec
    rw [← hr]
    rw [setProp_eq]
    show jsSum keys r = jsSum keys (setProp r "total" (jsSum keys r))
    unfold jsSum
    exact jsSum_congr r _ keys
      (fun k hk => (setProp_ne r "total" _ k (fun h => htotal (h ▸ hk))).symm)
      (some 0)

/-- C5, witness: two years, one site, collision-free keys. -/
theorem c5_prepareStackData_total_witness :
    ((prepareStackData ["Cultural", "Natural"] (fun s => s.category)
        1990 1991 [siteN]).map fun rec => rec "year") =
      (rangeYears 1990 1991).map some :=
  (c5_prepareStackData_total ["Cultural", "Natural"] (fun s => s.category)
    1990 1991 [siteN] (by decide) (by decide) (by decide)
    (fun s hs => by
      rw [show s = siteN from by simpa using hs]
      decide)).2.1

/-- Iterated `bump` on a present value counts up from it. -/
theorem bumpN_some (n k : Nat) : bumpN n (some k) = some (k + n) := by
  induction n generalizing k with
  | zero => rfl
  | succ m ih =>
    show bumpN m (bump (some k)) = some (k + (m + 1))
    rw [show bump (some k) = some (k + 1) from rfl, ih]
    congr 1
    omega

/-- Characterization of the event fold of `buildDangerSeries`: each point of
the result keeps its year and receives one `bump` per event that passes the
guard and carries that year. -/
theorem foldl_applyEvt (a b cursor : Int) (t : Char) (evts : List DEvent) :
    ∀ pts : List DPoint,
      evts.foldl (applyEvt a b cursor t) pts =
        pts.map (fun p =>
          ⟨p.year,
            bumpN (evts.countP fun e => evtOk a b cursor t e && e.year == p.year)
              p.value⟩) := by
  induction evts with
  | nil =>
    intro pts
    simp only [List.foldl_nil, List.countP_nil]
    exact (List.map_id pts).symm
  | cons e rest ih =>
    intro pts
    rw [List.foldl_cons]
    by_cases hok : evtOk a b cursor t e = true
    · have happ : applyEvt a b cursor t pts e =
          pts.map (fun p => if p.year = e.year then ⟨p.year, bump p.value⟩ else p) := by
        unfold applyEvt
        rw [if_pos hok]
      rw [happ, ih, List.map_map]
      refine List.map_congr_left fun p _ => ?_
      by_cases hy : p.year = e.year
      · have hbeq : (e.year == p.year) = true := by rw [hy]; exact beq_self_eq_true _
        simp only [Function.comp, if_pos hy, List.countP_cons, hok, hbeq,
          Bool.and_self, if_pos]
        rfl
      · have hbeq : (e.year == p.year) = false := by
          rw [beq_eq_false_iff_ne]
          exact fun hc => hy (hc.symm)
        simp [Function.comp, if_neg hy, List.countP_cons, hbeq]
    · have happ : applyEvt a b cursor t pts e = pts := by
        unfold applyEvt
        rw [if_neg hok]
      rw [happ, ih]
      refine List.map_congr_left fun p _ => ?_
      have : (evtOk a b cursor t e && e.year == p.year) = false := by
        cases h : evtOk a b cursor t e
        · rfl
        · exact absurd h hok
      simp [List.countP_cons, this]

/-- Membership in the year range gives the bounds. -/
theorem rangeYears_mem_bounds {a b y : Int} (h : y ∈ rangeYears a b) :
    a ≤ y ∧ y ≤ b := by
  unfold rangeYears at h
  obtain ⟨i, hi, rfl⟩ := List.mem_map.mp h
  rw [List.mem_range] at hi
  omega

/-- The bounds give membership in the year range. -/
theorem rangeYears_bounds_mem {a b y : Int} (h1 : a ≤ y) (h2 : y ≤ b) :
    y ∈ rangeYears a b := by
  unfold rangeYears
  refine List.mem_map.mpr ⟨(y - a).toNat, List.mem_range.mpr (by omega), by omega⟩

/-- Value of one series of `buildDangerSeries` at every point: the `null`
sentinel strictly beyond the cursor, the exact per-year event count at or
before it. -/
theorem dangerSeries_value_spec (data : List Site) (yearMin yearMax cursor : Int)
    (t : Char) (p : DPoint)
    (hp : p ∈ ((data.flatMap fun s => s.dangerEvents).foldl
      (applyEvt yearMin yearMax cursor t) (dangerBase yearMin yearMax cursor))) :
    (cursor < p.year → p.value = none) ∧
    (p.year ≤ cursor → p.value = some (eventCount data t p.year)) := by
  rw [foldl_applyEvt] at hp
  obtain ⟨q, hq, rfl⟩ := List.mem_map.mp hp
  unfold dangerBase at hq
  obtain ⟨y, hy, rfl⟩ := List.mem_map.mp hq
  constructor
  · intro hlt
    simp only at hlt ⊢
    have hcnt : ((data.flatMap fun s => s.dangerEvents).countP
        fun e => evtOk yearMin yearMax cursor t e && e.year == y) = 0 := by
      rw [List.countP_eq_zero]
      intro e _ hpred
      rw [Bool.and_eq_true] at hpred
      have h1 : e.year = y := by
        have := hpred.2
        exact eq_of_beq this
      have h2 : e.year ≤ cursor := by
        have := hpred.1
        unfold evtOk at this
        rw [Bool.and_eq_true, Bool.and_eq_true] at this
        exact of_decide_eq_true this.2
      omega
    rw [hcnt]
    rw [if_neg (by omega)]
    rfl
  · intro hle
    simp only at hle ⊢
    have hcnt : ((data.flatMap fun s => s.dangerEvents).countP
        fun e => evtOk yearMin yearMax cursor t e && e.year == y) =
        eventCount data t y := by
      rw [eventCount, ← List.countP_eq_length_filter]
      refine List.countP_congr fun e _ => ?_
      constructor
      · intro hpred
        rw [Bool.and_eq_true] at hpred ⊢
        refine ⟨?_, hpred.2⟩
        have := hpred.1
        unfold evtOk at this
        rw [Bool.and_eq_true, Bool.and_eq_true] at this
        exact this.1.1
      · intro hpred
        rw [Bool.and_eq_true] at hpred ⊢
        refine ⟨?_, hpred.2⟩
        have hey : e.year = y := eq_of_beq hpred.2
        unfold evtOk
        rw [Bool.and_eq_true, Bool.and_eq_true]
        refine ⟨⟨hpred.1, ?_⟩, decide_eq_true (by omega)⟩
        rw [hey]
        exact List.elem_iff.mpr hy
    rw [hcnt, if_pos hle, bumpN_some]
    rw [Nat.zero_add]

/-- C7: in both series returned by `buildDangerSeries`, every point whose
year is strictly greater than the cursor year carries the non-numeric
sentinel (`none`, the JS `null`, never zero), and every point with year at
most the cursor carries the exact count of matching danger events of that
point's year. -/
theorem c7_danger_sentinel (data : List Site) (yearMin yearMax cursor : Int)
    (p : DPoint) :
    (p ∈ (buildDangerSeries data yearMin yearMax cursor).Y →
      (cursor < p.year → p.value = none) ∧
      (p.year ≤ cursor → p.value = some (eventCount data 'Y' p.year))) ∧
    (p ∈ (buildDangerSeries data yearMin yearMax cursor).R →
      (cursor < p.year → p.value = none) ∧
      (p.year ≤ cursor → p.value = some (eventCount data 'R' p.year))) :=
  ⟨fun hp => dangerSeries_value_spec data yearMin yearMax cursor 'Y' p hp,
   fun hp => dangerSeries_value_spec data yearMin yearMax cursor 'R' p hp⟩

/-- C7, witness: for `siteN` (one Y event in 1999), extent 1998-2000 and
cursor 1999, the Y series point of 1999 carries count 1 and the point of
2000 carries the sentinel. -/
theorem c7_danger_sentinel_witness :
    ((⟨1999, some 1⟩ : DPoint) ∈ (buildDangerSeries [siteN] 1998 2000 1999).Y ∧
      (⟨1999, some 1⟩ : DPoint).value = some (eventCount [siteN] 'Y' 1999)) ∧
    ((⟨2000, none⟩ : DPoint) ∈ (buildDangerSeries [siteN] 1998 2000 1999).Y ∧
      (⟨2000, none⟩ : DPoint).value = none) :=
  ⟨⟨by decide,
      ((c7_danger_sentinel [siteN] 1998 2000 1999 ⟨1999, some 1⟩).1 (by decide)).2
        (by decide)⟩,
   ⟨by decide,
      ((c7_danger_sentinel [siteN] 1998 2000 1999 ⟨2000, none⟩).1 (by decide)).1
        (by decide)⟩⟩

/-- Filtering each group before flattening is filtering after flattening. -/
theorem flatMap_filter_comm {α β : Type} (g : α → List β) (q : β → Bool) :
    ∀ l : List α, (l.flatMap fun x => (g x).filter q) = (l.flatMap g).filter q := by
  intro l
  induction l with
  | nil => rfl
  | cons x xs ih => simp only [List.flatMap_cons, List.filter_append, ih]

/-- An event passing the series guard lies inside the global extent. -/
theorem evtOk_in_extent {a b cursor : Int} {t : Char} {e : DEvent}
    (h : evtOk a b cursor t e = true) :
    (decide (a ≤ e.year) && decide (e.year ≤ b)) = true := by
  unfold evtOk at h
  rw [Bool.and_eq_true, Bool.and_eq_true] at h
  have hmem : e.year ∈ rangeYears a b := List.elem_iff.mp h.1.2
  have := rangeYears_mem_bounds hmem
  rw [Bool.and_eq_true]
  exact ⟨decide_eq_true this.1, decide_eq_true this.2⟩

/-- C10: `buildDangerSeries` silently ignores every danger event whose year
lies outside the global `[yearMin, yearMax]` extent, even when that year is
at or before the cursor: restricting each site's events to the extent first
leaves both output series unchanged. -/
theorem c10_out_of_extent_events_ignored (data : List Site)
    (yearMin yearMax cursor : Int) :
    buildDangerSeries (data.map (restrictEvents yearMin yearMax))
        yearMin yearMax cursor =
      buildDangerSeries data yearMin yearMax cursor := by
  have hflat : ((data.map (restrictEvents yearMin yearMax)).flatMap
        fun s => s.dangerEvents) =
      (data.flatMap fun s => s.dangerEvents).filter
        (fun e => decide (yearMin ≤ e.year) && decide (e.year ≤ yearMax)) := by
    rw [List.flatMap_map]
    exact flatMap_filter_comm (fun s => s.dangerEvents)
      (fun e => decide (yearMin ≤ e.year) && decide (e.year ≤ yearMax)) data
  simp only [buildDangerSeries]
  rw [hflat]
  have hfold : ∀ t : Char,
      (((data.flatMap fun s => s.dangerEvents).filter
          (fun e => decide (yearMin ≤ e.year) && decide (e.year ≤ yearMax))).foldl
        (applyEvt yearMin yearMax cursor t) (dangerBase yearMin yearMax cursor)) =
      ((data.flatMap fun s => s.dangerEvents).foldl
        (applyEvt yearMin yearMax cursor t) (dangerBase yearMin yearMax cursor)) := by
    intro t
    rw [foldl_applyEvt, foldl_applyEvt]
    refine List.map_congr_left fun p _ => ?_
    have hcnt : (((data.flatMap fun s => s.dangerEvents).filter
          (fun e => decide (yearMin ≤ e.year) && decide (e.year ≤ yearMax))).countP
        fun e => evtOk yearMin yearMax cursor t e && e.year == p.year) =
        ((data.flatMap fun s => s.dangerEvents).countP
          fun e => evtOk yearMin yearMax cursor t e && e.year == p.year) := by
      rw [List.countP_filter]
      refine List.countP_congr fun e _ => ?_
      constructor
      · intro hq
        rw [Bool.and_eq_true] at hq
        exact hq.1
      · intro hq
        rw [Bool.and_eq_true]
        refine ⟨hq, ?_⟩
        rw [Bool.and_eq_true] at hq
        exact evtOk_in_extent hq.1
    rw [hcnt]
  rw [hfold 'Y', hfold 'R']

/-- Unfolding lemma for `firstKeys` on a cons cell. -/
theorem firstKeys_cons (k : String) (rest : List String) :
    firstKeys (k :: rest) = k :: firstKeys (rest.filter fun x => !(x == k)) := by
  rw [firstKeys]

/-- Unfolding lemma for `firstKeys` on nil. -/
theorem firstKeys_nil : firstKeys [] = [] := by rw [firstKeys]

/-- Every key produced by `firstKeys` occurs in the input. -/
theorem firstKeys_subset :
    ∀ (n : Nat) (l : List String), l.length ≤ n → ∀ k, k ∈ firstKeys l → k ∈ l := by
  intro n
  induction n with
  | zero =>
    intro l hl k hk
    have : l = [] := List.length_eq_zero.mp (Nat.le_zero.mp hl)
    subst this
    rw [firstKeys_nil] at hk
    exact absurd hk (List.not_mem_nil k)
  | succ m ih =>
    intro l hl k hk
    match l with
    | [] =>
      rw [firstKeys_nil] at hk
      exact absurd hk (List.not_mem_nil k)
    | x :: xs =>
      rw [firstKeys_cons] at hk
      rcases List.mem_cons.mp hk with h | h
      · exact h ▸ List.mem_cons_self _ _
      · have hlen : (xs.filter fun y => !(y == x)).length ≤ m := by
          have := List.length_filter_le (fun y => !(y == x)) xs
          simp only [List.length_cons] at hl
          omega
        exact List.mem_cons_of_mem _
          (List.mem_of_mem_filter (ih _ hlen k h))

/-- Partition lemma: grouping a list by a string key and summing the group
sizes over the distinct keys in first-occurrence order recovers the list's
length. -/
theorem sum_partition {α : Type} (key : α → String) :
    ∀ (n : Nat) (l : List α), l.length ≤ n →
      (((firstKeys (l.map key)).map fun k =>
        (l.filter fun x => key x == k).length).sum) = l.length := by
  intro n
  induction n with
  | zero =>
    intro l hl
    have : l = [] := List.length_eq_zero.mp (Nat.le_zero.mp hl)
    subst this
    rw [List.map_nil, firstKeys_nil]
    rfl
  | succ m ih =>
    intro l hl
    match l with
    | [] =>
      rw [List.map_nil, firstKeys_nil]
      rfl
    | x :: xs =>
      simp only [List.map_cons] at *
      rw [firstKeys_cons]
      have hswap : ((xs.map key).filter fun s => !(s == key x)) =
          (xs.filter fun a => !(key a == key x)).map key := by
        rw [List.filter_map]
        rfl
      rw [hswap]
      set mlist := xs.filter fun a => !(key a == key x) with hm
      rw [List.map_cons, List.sum_cons]
      have hmlen : mlist.length ≤ m := by
        rw [hm]
        have := List.length_filter_le (fun a => !(key a == key x)) xs
        simp only [List.length_cons] at hl
        omega
      have hcongr :
          ((firstKeys (mlist.map key)).map fun k =>
            ((x :: xs).filter fun y => key y == k).length) =
          ((firstKeys (mlist.map key)).map fun k =>
            (mlist.filter fun y => key y == k).length) := by
        refine List.map_congr_left fun k hk => ?_
        have hkm : k ∈ mlist.map key :=
          firstKeys_subset (mlist.map key).length _ (le_refl _) k hk
        obtain ⟨a, ha, rfl⟩ := List.mem_map.mp hkm
        have hane : (key a == key x) = false := by
          have hmem := List.of_mem_filter ha
          simpa using hmem
        have hxfalse : (key x == key a) = false := by
          cases hb : (key x == key a)
          · rfl
          · have : key x = key a := eq_of_beq hb
            rw [this, beq_self_eq_true] at hane
            exact absurd hane (by simp)
        congr 1
        rw [List.filter_cons]
        rw [if_neg (by simp [hxfalse])]
        rw [hm, List.filter_filter]
        refine (List.filter_congr fun y _ => ?_).symm
        cases hy : (key y == key a)
        · simp
        · have : key y = key a := eq_of_beq hy
          have hyne : (key y == key x) = false := by
            cases hz : (key y == key x)
            · rfl
            · have h1 : key y = key x := eq_of_beq hz
              rw [← this, h1, beq_self_eq_true] at hxfalse
              exact absurd hxfalse (by simp)
          simp [hyne]
      rw [hcongr, ih mlist hmlen]
      have hx : ((x :: xs).filter fun y => key y == key x).length =
          1 + (xs.filter fun y => key y == key x).length := by
        rw [List.filter_cons, if_pos (by simp)]
        simp [Nat.add_comm]
      rw [hx, hm]
      have := List.length_eq_length_filter_add (l := xs) (fun y => key y == key x)
      simp only [List.length_cons]
      omega

/-- `leafSumList` is the sum of the members' leaf sums. -/
theorem leafSumList_eq_sum_map (l : List HNode) :
    leafSumList l = (l.map leafSum).sum := by
  induction l with
  | nil => rfl
  | cons h t ih => rw [List.map_cons, List.sum_cons, ← ih]; rfl

/-- The category leaves of a pair group sum to the group's size. -/
theorem leafSumList_categoryLeaves (pairs : List SCPair) :
    leafSumList (categoryLeaves pairs) = pairs.length := by
  unfold categoryLeaves
  rw [leafSumList_eq_sum_map, List.map_map]
  have := sum_partition (fun p : SCPair => p.site.category) pairs.length pairs
    (le_refl _)
  simpa using this

/-- The country nodes of a pair group sum to the group's size. -/
theorem leafSumList_countryNodes (pairs : List SCPair) :
    leafSumList (countryNodes pairs) = pairs.length := by
  unfold countryNodes
  rw [leafSumList_eq_sum_map, List.map_map]
  have hmap :
      ((fun n => leafSum n) ∘ fun cty =>
        HNode.node cty (categoryLeaves (pairs.filter fun p => p.country == cty))) =
      fun cty => (pairs.filter fun p => p.country == cty).length := by
    funext cty
    show leafSumList (categoryLeaves (pairs.filter fun p => p.country == cty)) = _
    rw [leafSumList_categoryLeaves]
  rw [show (leafSum ∘ fun cty =>
      HNode.node cty (categoryLeaves (pairs.filter fun p => p.country == cty))) =
      fun cty => (pairs.filter fun p => p.country == cty).length from hmap]
  have := sum_partition (fun p : SCPair => p.country) pairs.length pairs (le_refl _)
  simpa using this

/-- The region nodes of the full pair list sum to its length. -/
theorem leafSumList_regionNodes (pairs : List SCPair) :
    leafSumList (regionNodes pairs) = pairs.length := by
  unfold regionNodes
  rw [leafSumList_eq_sum_map, List.map_map]
  have hmap :
      (leafSum ∘ fun reg =>
        HNode.node reg (countryNodes (pairs.filter fun p => p.site.region == reg))) =
      fun reg => (pairs.filter fun p => p.site.region == reg).length := by
    funext reg
    show leafSumList (countryNodes (pairs.filter fun p => p.site.region == reg)) = _
    rw [leafSumList_countryNodes]
  rw [hmap]
  have := sum_partition (fun p : SCPair => p.site.region) pairs.length pairs
    (le_refl _)
  simpa using this

/-- C6: the sum of all leaf values of `buildHierarchy`'s tree equals the
number of (site, country) pairs, i.e. the sum over the filtered sites of the
lengths of their `countries` lists — a site listed under `N` countries
contributes to exactly `N` leaves. -/
theorem c6_hierarchy_leaf_sum (data : List Site) :
    leafSum (buildHierarchy data) =
      (data.map fun s => s.countries.length).sum := by
  unfold buildHierarchy
  show leafSumList (regionNodes (flatPairs data)) = _
  rw [leafSumList_regionNodes]
  unfold flatPairs
  rw [List.length_flatMap]
  refine congrArg List.sum (List.map_congr_left fun s _ => ?_)
  show (s.countries.map fun c => (⟨s, c⟩ : SCPair)).length = s.countries.length
  rw [List.length_map]

/-- Every token `parseCriteriaLoop` emits is a non-empty string over the
lowercase letters i, v, x. -/
theorem parseCriteriaLoop_tokens :
    ∀ (fuel : Nat) (l : List Char), ∀ tok ∈ parseCriteriaLoop fuel l,
      tok.data ≠ [] ∧ ∀ ch ∈ tok.data, ch = 'i' ∨ ch = 'v' ∨ ch = 'x' := by
  intro fuel
  induction fuel with
  | zero =>
    intro l tok htok
    match l with
    | [] => exact absurd htok (List.not_mem_nil tok)
    | c :: rest => exact absurd htok (List.not_mem_nil tok)
  | succ m ih =>
    intro l tok htok
    match l with
    | [] => exact absurd htok (List.not_mem_nil tok)
    | c :: rest =>
      rw [show parseCriteriaLoop (m + 1) (c :: rest) =
          (if c = '(' then
            if rest.takeWhile isIvxChar ≠ [] ∧
                (rest.dropWhile isIvxChar).head? = some ')' then
              lowerTok (rest.takeWhile isIvxChar) ::
                parseCriteriaLoop m (rest.dropWhile isIvxChar).tail
            else parseCriteriaLoop m rest
          else parseCriteriaLoop m rest) from rfl] at htok
      by_cases hc : c = '('
      · rw [if_pos hc] at htok
        by_cases hcond : rest.takeWhile isIvxChar ≠ [] ∧
            (rest.dropWhile isIvxChar).head? = some ')'
        · rw [if_pos hcond] at htok
          rcases List.mem_cons.mp htok with heq | hmem
          · subst heq
            constructor
            · show (rest.takeWhile isIvxChar).map Char.toLower ≠ []
              intro hnil
              exact hcond.1 (List.map_eq_nil_iff.mp hnil)
            · intro ch hch
              show ch = 'i' ∨ ch = 'v' ∨ ch = 'x'
              have hch' : ch ∈ (rest.takeWhile isIvxChar).map Char.toLower := hch
              obtain ⟨c0, hc0, rfl⟩ := List.mem_map.mp hch'
              have hivx : isIvxChar c0 = true := List.mem_takeWhile_imp hc0
              have hmem6 : c0 ∈ ['i', 'v', 'x', 'I', 'V', 'X'] :=
                of_decide_eq_true hivx
              fin_cases hmem6 <;> decide
          · exact ih _ tok hmem
        · rw [if_neg hcond] at htok
          exact ih rest tok htok
      · rw [if_neg hc] at htok
        exact ih rest tok htok

/-- The single record `rXi` normalizes to exactly `siteXi`. -/
theorem normalize_rXi : normalize [rXi] = [siteXi] := by
  unfold normalize
  rw [show (([rXi].map formatSite).filterMap id).filter
      (fun d => d.lat.isSome && d.lon.isSome) = [siteXi] by decide]
  exact List.mergeSort_singleton siteXi

/-- C3, counterexample: the record `rXi` (criteria text "(xi)", a valid
parenthesized [ivx]+ token that is not a roman numeral between i and x)
normalizes to a site whose criteria list carries the token "xi", outside
the ten-code alphabet. -/
theorem c3_counterexample :
    siteXi ∈ normalize [rXi] ∧ "xi" ∈ siteXi.criteria ∧ "xi" ∉ criteriaOrder := by
  rw [normalize_rXi]
  refine ⟨by decide, by decide, by decide⟩

/-- C3, amended: every criteria token of a normalized site is a non-empty
lowercase string over the letters {i, v, x}; tokens outside the ten fixed
codes (such as "xi") can appear when the raw text carries them. -/
theorem c3_criteria_tokens_amended (rs : List RawRecord) (s : Site)
    (hs : s ∈ normalize rs) :
    ∀ c ∈ s.criteria, c.data ≠ [] ∧ ∀ ch ∈ c.data, ch = 'i' ∨ ch = 'v' ∨ ch = 'x' := by
  intro c hc
  have hsmem : s ∈ (rs.map formatSite).filterMap id := by
    have h1 := List.mem_mergeSort.mp hs
    exact (List.mem_filter.mp h1).1
  rw [List.filterMap_map] at hsmem
  obtain ⟨r, _, hfs⟩ := List.mem_filterMap.mp hsmem
  have hcrit : s.criteria = parseCriteria r.criteria_txt := by
    unfold formatSite at hfs
    simp only [Function.comp] at hfs
    split at hfs
    · exact absurd hfs (by simp)
    · have := Option.some.inj hfs
      rw [← this]
  rw [hcrit] at hc
  unfold parseCriteria at hc
  split at hc
  · exact absurd hc (List.not_mem_nil c)
  · split at hc
    · exact absurd hc (List.not_mem_nil c)
    · exact parseCriteriaLoop_tokens _ _ c hc

/-- C3, witness: the amended theorem evaluated at `rXi` and its token
"xi". -/
theorem c3_criteria_tokens_amended_witness :
    ("xi" : String).data ≠ [] ∧
    ∀ ch ∈ ("xi" : String).data, ch = 'i' ∨ ch = 'v' ∨ ch = 'x' :=
  c3_criteria_tokens_amended [rXi] siteXi
    (by rw [normalize_rXi]; decide) "xi" (by decide)

/-- Four digits at `i` force `i` to lie inside the text. -/
theorem fourDigitsAt_lt {l : List Char} {i : Nat}
    (h : fourDigitsAt l i = true) : i < l.length := by
  unfold fourDigitsAt at h
  by_contra hge
  push_neg at hge
  rw [List.drop_eq_nil_of_le hge] at h
  exact absurd h (by decide)

/-- Index shift for `fourDigitsAt` on a cons cell. -/
theorem fourDigitsAt_cons_succ (c : Char) (t : List Char) (i : Nat) :
    fourDigitsAt (c :: t) (i + 1) = fourDigitsAt t i := rfl

/-- Index zero for `fourDigitsAt`. -/
theorem fourDigitsAt_zero (l : List Char) : fourDigitsAt l 0 = fourHere l := rfl

/-- `firstFour` finds exactly the first window of four consecutive digits. -/
theorem firstFour_some_iff :
    ∀ (l : List Char) (w : List Char),
      firstFour l = some w ↔
        ∃ i, fourDigitsAt l i = true ∧ (∀ j < i, fourDigitsAt l j = false) ∧
          w = window l i := by
  intro l
  induction l with
  | nil =>
    intro w
    constructor
    · intro h
      exact absurd h (by simp [firstFour])
    · rintro ⟨i, hi, -, -⟩
      have := fourDigitsAt_lt hi
      simp at this
  | cons c t ih =>
    intro w
    by_cases h4 : fourHere (c :: t) = true
    · rw [show firstFour (c :: t) = some ((c :: t).take 4) from by
        rw [firstFour, if_pos h4]]
      constructor
      · intro h
        refine ⟨0, by rw [fourDigitsAt_zero]; exact h4, by omega, ?_⟩
        have := Option.some.inj h
        rw [← this]
        rfl
      · rintro ⟨i, hi, hmin, hw⟩
        match i with
        | 0 =>
          rw [hw]
          rfl
        | i' + 1 =>
          have h0 := hmin 0 (by omega)
          rw [fourDigitsAt_zero] at h0
          rw [h0] at h4
          exact absurd h4 (by decide)
    · rw [show firstFour (c :: t) = firstFour t from by
        rw [firstFour, if_neg h4]]
      rw [ih w]
      constructor
      · rintro ⟨i, hi, hmin, hw⟩
        refine ⟨i + 1, ?_, ?_, ?_⟩
        · rw [fourDigitsAt_cons_succ]
          exact hi
        · intro j hj
          match j with
          | 0 =>
            rw [fourDigitsAt_zero]
            exact Bool.eq_false_iff.mpr h4
          | j' + 1 =>
            rw [fourDigitsAt_cons_succ]
            exact hmin j' (by omega)
        · exact hw
      · rintro ⟨i, hi, hmin, hw⟩
        match i with
        | 0 =>
          rw [fourDigitsAt_zero] at hi
          exact absurd hi h4
        | i' + 1 =>
          rw [fourDigitsAt_cons_succ] at hi
          refine ⟨i', hi, ?_, hw⟩
          intro j hj
          have := hmin (j + 1) (by omega)
          rw [fourDigitsAt_cons_succ] at this
          exact this

/-- Minimal witnesses of `fourDigitsAt` are unique. -/
theorem minimal_four_unique {l : List Char} {i i' : Nat}
    (hi : fourDigitsAt l i = true) (hmin : ∀ j < i, fourDigitsAt l j = false)
    (hi' : fourDigitsAt l i' = true) (hmin' : ∀ j < i', fourDigitsAt l j = false) :
    i = i' := by
  rcases Nat.lt_trichotomy i i' with h | h | h
  · rw [hmin' i h] at hi
    exact absurd hi (by decide)
  · exact h
  · rw [hmin i' h] at hi'
    exact absurd hi' (by decide)

/-- The record-keeping year test of `formatSite` (`!year` on `parseYear`'s
result) holds exactly under the claim-side condition `yearSpec`. -/
theorem parseYear_truthy_iff (o : Option String) :
    jsFalsyYear (parseYear o) = false ↔ yearSpec o := by
  match o with
  | none =>
    constructor
    · intro h
      exact absurd h (by decide)
    · intro h
      exact absurd h (by exact fun x => x)
  | some s =>
    by_cases hempty : s = ""
    · subst hempty
      constructor
      · intro h
        exact absurd h (by decide)
      · rintro ⟨i, hilt, -⟩
        have hz : ("" : String).data.length = 0 := rfl
        omega
    · rw [show parseYear (some s) =
          (match firstFour s.data with
           | some w => some ((digitsToNat w : Int))
           | none => none) from by rw [parseYear, if_neg hempty]]
      match hff : firstFour s.data with
      | none =>
        constructor
        · intro h
          exact absurd h (by decide)
        · rintro ⟨i, hilt, hi, hmin, hval⟩
          have : firstFour s.data = some (window s.data i) :=
            (firstFour_some_iff s.data (window s.data i)).mpr ⟨i, hi, hmin, rfl⟩
          rw [hff] at this
          exact absurd this (by simp)
      | some w =>
        obtain ⟨i, hi, hmin, hw⟩ := (firstFour_some_iff s.data w).mp hff
        constructor
        · intro h
          have hne : digitsToNat w ≠ 0 := by
            intro h0
            rw [show jsFalsyYear (some ((digitsToNat w : Int))) =
                ((digitsToNat w : Int) == 0) from rfl] at h
            rw [h0] at h
            exact absurd h (by decide)
          exact ⟨i, fourDigitsAt_lt hi, hi, hmin, hw ▸ hne⟩
        · rintro ⟨i', hilt', hi', hmin', hval'⟩
          have : i = i' := minimal_four_unique hi hmin hi' hmin'
          subst this
          rw [← hw] at hval'
          rw [show jsFalsyYear (some ((digitsToNat w : Int))) =
              ((digitsToNat w : Int) == 0) from rfl]
          cases hb : ((digitsToNat w : Int) == 0)
          · rfl
          · have : (digitsToNat w : Int) = 0 := eq_of_beq hb
            rw [Int.natCast_eq_zero] at this
            exact absurd this hval'

/-- A record survives normalization exactly when its year test passes and
both coordinates are finite. -/
theorem keeps_iff (r : RawRecord) :
    keeps r = true ↔
      jsFalsyYear (parseYear (dateField r)) = false ∧
        r.lat.isSome = true ∧ r.lon.isSome = true := by
  unfold keeps formatSite dateField
  cases hf : jsFalsyYear (parseYear (r.date_inscribed.orElse fun _ => r.secondary_dates))
  · simp only [hf, Bool.false_eq_true, if_false, Bool.and_eq_true]
    constructor
    · intro h
      exact ⟨trivial, h⟩
    · intro h
      exact h.2
  · simp only [hf, if_true]
    constructor
    · intro h
      exact absurd h (by decide)
    · rintro ⟨h, -⟩
      exact absurd h (by simp)

/-- The `init` filter over non-null `formatSite` results is the
`filterMap` over the records that `keeps` accepts. -/
theorem filterMap_filter_keeps :
    ∀ rs : List RawRecord,
      ((rs.map formatSite).filterMap id).filter
          (fun d => d.lat.isSome && d.lon.isSome) =
        (rs.filter keeps).filterMap formatSite := by
  intro rs
  induction rs with
  | nil => rfl
  | cons r rest ih =>
    simp only [List.map_cons, List.filterMap_cons, id]
    cases hf : formatSite r with
    | none =>
      have hk : keeps r = false := by
        unfold keeps
        rw [hf]
      rw [List.filter_cons, hk]
      simp only [Bool.false_eq_true, if_false]
      exact ih
    | some d =>
      have hk : keeps r = (d.lat.isSome && d.lon.isSome) := by
        unfold keeps
        rw [hf]
      rw [List.filter_cons, List.filter_cons, hk]
      cases hp : (d.lat.isSome && d.lon.isSome)
      · simp only [Bool.false_eq_true, if_false]
        exact ih
      · simp only [if_true]
        rw [List.filterMap_cons, hf, ih]

/-- C1, counterexample: the record `rZeroYear` has finite coordinates and a
date text ("0000") that does contain a run of exactly four digits, yet
`normalize` drops it (`+"0000"` is `0`, which the `!year` test treats as
missing), refuting "drops exactly those records lacking finite lat/lon or a
four-digit run". -/
theorem c1_counterexample :
    dateField rZeroYear = some "0000" ∧
    hasRunOfExactlyFourDigits "0000" ∧
    rZeroYear.lat.isSome = true ∧ rZeroYear.lon.isSome = true ∧
    normalize [rZeroYear] = [] := by
  refine ⟨rfl, ⟨0, by decide, by decide, Or.inl rfl, by decide⟩, rfl, rfl, ?_⟩
  unfold normalize
  rw [show (([rZeroYear].map formatSite).filterMap id).filter
      (fun d => d.lat.isSome && d.lon.isSome) = [] by decide]
  exact List.mergeSort_nil

/-- C1, amended: `normalize` keeps exactly the records with finite latitude
and longitude whose date text has a first window of four consecutive digits
of non-zero value (so a longer digit run qualifies through its first four
digits, and the window "0000" is dropped); the output is precisely the
year-sorted `formatSite` images of the kept records. -/
theorem c1_normalize_amended (rs : List RawRecord) :
    (∀ r : RawRecord, keeps r = true ↔ specKept r) ∧
    normalize rs =
      ((rs.filter keeps).filterMap formatSite).mergeSort
        (fun a b => a.year ≤ b.year) := by
  constructor
  · intro r
    rw [keeps_iff]
    unfold specKept
    rw [parseYear_truthy_iff]
    constructor
    · rintro ⟨h1, h2, h3⟩
      exact ⟨h2, h3, h1⟩
    · rintro ⟨h1, h2, h3⟩
      exact ⟨h3, h1, h2⟩
  · unfold normalize
    rw [filterMap_filter_keeps]

/-- C1, witness: the amended characterization evaluated at the kept record
`rXi` and at the dropped record `rZeroYear`. -/
theorem c1_normalize_amended_witness :
    (keeps rXi = true ∧ specKept rXi) ∧ (keeps rZeroYear = false) :=
  ⟨⟨by decide, ((c1_normalize_amended []).1 rXi).mp (by decide)⟩, by decide⟩

end WHC
